import Mathlib

/-!
Verification development for the poly-innovatio trading engine.

Shallow embedding of the TypeScript sources:
  * `src/db.ts`        — the trades table and its insert/update statements
  * `src/strategy.ts`  — price-gate entry logic and the background resolution loop
  * `src/clob.ts`      — dual-order placement and the fill-race poll
  * `src/index.ts`     — the live session loop's loss-limit guard
  * the per-window resolver variant (`resolveMarketTrades`)

Prices are modelled as rationals, timestamps as integers (unix seconds),
the SQLite table as a list of rows plus an autoincrement counter, and the
module-scoped mutable state of strategy.ts as an explicit state record.
External collaborators (settlement queries, exchange order status) are
passed in as pure oracle functions; emitted exchange calls (order
cancellations) are collected in output lists.
-/

namespace PolyBet

/-- Outcome column of the trades table: `'win' | 'lose' | 'timeout'`
(`NULL` is modelled as `Option.none` at the use site). -/
inductive Outcome where
  | win
  | lose
  | timeout
deriving DecidableEq

/-- One row of the `trades` table (db.ts, `CREATE TABLE trades`). -/
structure Trade where
  id : Nat
  market_slug : String
  condition_id : String
  token_id : String
  side : String
  buy_price : ℚ
  outcome : Option Outcome
  payout : Option ℚ
  profit : Option ℚ
  created_at : ℤ
  resolved_at : Option ℤ
deriving DecidableEq

/-- The trades database: rows plus the AUTOINCREMENT counter. -/
structure Db where
  trades : List Trade
  nextId : Nat
deriving DecidableEq

/-- db.ts `insertTrade`: INSERT a fresh row with NULL outcome/payout/profit,
`created_at = datetime('now')` (the caller's clock is threaded in as `now`). -/
def insertTrade (db : Db) (marketSlug conditionId tokenId side : String)
    (buyPrice : ℚ) (now : ℤ) : Db :=
  { trades := db.trades ++
      [{ id := db.nextId, market_slug := marketSlug, condition_id := conditionId,
         token_id := tokenId, side := side, buy_price := buyPrice,
         outcome := none, payout := none, profit := none,
         created_at := now, resolved_at := none }],
    nextId := db.nextId + 1 }

/-- db.ts `resolveTrade` UPDATE applied to a single row:
`SET outcome = ?, payout = ?, profit = ? - buy_price, resolved_at = now`
where the payout passed is 1.0 on `'win'` and 0.0 on `'lose'`. -/
def resolveTradeRow (t : Trade) (outcome : Outcome) (now : ℤ) : Trade :=
  let payout : ℚ := if outcome = Outcome.win then 1 else 0
  { t with outcome := some outcome, payout := some payout,
           profit := some (payout - t.buy_price), resolved_at := some now }

/-- db.ts `resolveTrade`: UPDATE ... WHERE id = ?. -/
def resolveTrade (db : Db) (id : Nat) (outcome : Outcome) (now : ℤ) : Db :=
  { db with trades := db.trades.map fun t =>
      if t.id = id then resolveTradeRow t outcome now else t }

/-- db.ts `resolveTradeTimeout` UPDATE applied to a single row:
`SET outcome = 'timeout', payout = 0, profit = -buy_price, resolved_at = now`. -/
def resolveTradeTimeoutRow (t : Trade) (now : ℤ) : Trade :=
  { t with outcome := some Outcome.timeout, payout := some 0,
           profit := some (-t.buy_price), resolved_at := some now }

/-- db.ts `resolveTradeTimeout`: UPDATE ... WHERE id = ?. -/
def resolveTradeTimeout (db : Db) (id : Nat) (now : ℤ) : Db :=
  { db with trades := db.trades.map fun t =>
      if t.id = id then resolveTradeTimeoutRow t now else t }

/-- db.ts `getOpenTrades`:
`SELECT * FROM trades WHERE outcome IS NULL AND created_at > datetime('now','-1 hour')`. -/
def getOpenTrades (db : Db) (now : ℤ) : List Trade :=
  db.trades.filter fun t => t.outcome.isNone && decide (now - 3600 < t.created_at)

/-- db.ts `getTradesBySlug`: `SELECT * FROM trades WHERE market_slug = ?`. -/
def getTradesBySlug (db : Db) (slug : String) : List Trade :=
  db.trades.filter fun t => decide (t.market_slug = slug)

/-- market.ts `MarketInfo`. -/
structure MarketInfo where
  slug : String
  conditionId : String
  upTokenId : String
  downTokenId : String
deriving DecidableEq

/-! ### strategy.ts: price gate -/

/-- strategy.ts `BUY_THRESHOLD = 0.6` (written as `mkRat 60 100 = 3/5` so
that the kernel can evaluate comparisons against it). -/
def BUY_THRESHOLD : ℚ := mkRat 60 100

/-- strategy.ts `BUY_MAX_PRICE = 0.85` (written as `mkRat 85 100 = 17/20`). -/
def BUY_MAX_PRICE : ℚ := mkRat 85 100

/-- `prices.set(tokenId, price)` on the latest-price map (assoc list). -/
def priceSet (ps : List (String × ℚ)) (k : String) (v : ℚ) : List (String × ℚ) :=
  match ps with
  | [] => [(k, v)]
  | (k₀, v₀) :: rest =>
      if k₀ = k then (k, v) :: rest else (k₀, v₀) :: priceSet rest k v

/-- `prices.get(tokenId)` on the latest-price map. -/
def priceGet (ps : List (String × ℚ)) (k : String) : Option ℚ :=
  match ps with
  | [] => none
  | (k₀, v₀) :: rest => if k₀ = k then some v₀ else priceGet rest k

/-- Module-scoped mutable state of strategy.ts: the latest-price map, the
"price too high" log-once set, the settled flag, the betted-market set and
the trades database it writes through to. -/
structure StrategyState where
  prices : List (String × ℚ)
  priceHighLogged : List String
  marketSettled : Bool
  bettedMarkets : List String
  db : Db
deriving DecidableEq

/-- strategy.ts module initialisation: the betted-market set is seeded from
`getOpenTrades()` (`bettedMarkets = new Set(getOpenTrades().map(t => t.market_slug))`). -/
def startupState (db : Db) (now : ℤ) : StrategyState :=
  { prices := [], priceHighLogged := [], marketSettled := false,
    bettedMarkets := (getOpenTrades db now).map Trade.market_slug,
    db := db }

/-- strategy.ts lines 50-60: the settled-detection guard fires when the flag
is unset, the market is not yet bet, and both sides' latest prices exist and
exceed `BUY_MAX_PRICE`. -/
def settledFires (m : MarketInfo) (s : StrategyState) : Bool :=
  !s.marketSettled && !(decide (m.slug ∈ s.bettedMarkets)) &&
    (match priceGet s.prices m.upTokenId, priceGet s.prices m.downTokenId with
     | some upPrice, some downPrice =>
         decide (BUY_MAX_PRICE < upPrice) && decide (BUY_MAX_PRICE < downPrice)
     | _, _ => false)

/-- strategy.ts lines 67-74: on `price > BUY_MAX_PRICE` the key
`slug:tokenId` is added to the log-once set (then return). -/
def logHigh (m : MarketInfo) (tokenId : String) (s : StrategyState) : StrategyState :=
  let key := m.slug ++ ":" ++ tokenId
  if key ∈ s.priceHighLogged then s
  else { s with priceHighLogged := key :: s.priceHighLogged }

/-- strategy.ts lines 86-94: `bettedMarkets.add(market.slug)` then
`insertTrade(...)`. -/
def placeBet (m : MarketInfo) (tokenId side : String) (price : ℚ) (now : ℤ)
    (s : StrategyState) : StrategyState :=
  { s with bettedMarkets := m.slug :: s.bettedMarkets,
           db := insertTrade s.db m.slug m.conditionId tokenId side price now }

/-- The decision chain of strategy.ts `handlePriceUpdate` after the tick has
been stored, in source order: fire the settled-detection shortcut; return if
already bet; return if `price < BUY_THRESHOLD`; log-and-return if
`price > BUY_MAX_PRICE`; derive the side from the token id (Up checked
first, an unmatched id returns); otherwise record the bet. -/
def gateStep (m : MarketInfo) (tokenId : String) (price : ℚ) (now : ℤ)
    (s : StrategyState) : StrategyState :=
  if settledFires m s then { s with marketSettled := true }
  else if m.slug ∈ s.bettedMarkets then s
  else if price < BUY_THRESHOLD then s
  else if BUY_MAX_PRICE < price then logHigh m tokenId s
  else if tokenId = m.upTokenId then placeBet m tokenId "Up" price now s
  else if tokenId = m.downTokenId then placeBet m tokenId "Down" price now s
  else s

/-- strategy.ts `handlePriceUpdate(market, tokenId, price)`:
`prices.set(tokenId, price)` followed by the decision chain. -/
def handlePriceUpdate (m : MarketInfo) (tokenId : String) (price : ℚ) (now : ℤ)
    (s₀ : StrategyState) : StrategyState :=
  gateStep m tokenId price now { s₀ with prices := priceSet s₀.prices tokenId price }

/-- A sequence of price ticks `(tokenId, price, now)` for one market window,
fed through `handlePriceUpdate` in order. -/
def runTicks (m : MarketInfo) (ticks : List (String × ℚ × ℤ))
    (s : StrategyState) : StrategyState :=
  ticks.foldl (fun acc tk => handlePriceUpdate m tk.1 tk.2.1 tk.2.2 acc) s

/-- Rows of the database belonging to one window slug. -/
def tradesFor (db : Db) (slug : String) : List Trade :=
  db.trades.filter fun t => decide (t.market_slug = slug)

/-! ### strategy.ts: background resolution loop -/

/-- One cycle of strategy.ts `startResolutionLoop`'s interval body: fetch
`getOpenTrades()`, group the open trades by slug, query `checkResolution`
once per slug (modelled as the pure oracle `resolution`), and for every
trade of a resolving group run the keyed UPDATE
`resolveTrade(trade.id, trade.side === winner ? "win" : "lose")`.
Since `resolution` is pure and every UPDATE is keyed by the row id, the
grouping is equivalent to folding this per-trade update over the fetched
list in order; `cycleStep` is that per-trade update. -/
def cycleStep (resolution : String → Option String) (now : ℤ) (acc : Db)
    (t : Trade) : Db :=
  match resolution t.market_slug with
  | some winner =>
      resolveTrade acc t.id (if t.side = winner then Outcome.win else Outcome.lose) now
  | none => acc

/-- The interval body of strategy.ts `startResolutionLoop`, folded over the
fetched open trades (see `cycleStep`). -/
def resolutionCycle (db : Db) (resolution : String → Option String) (now : ℤ) : Db :=
  (getOpenTrades db now).foldl (cycleStep resolution now) db

/-! ### per-window resolver (`resolveMarketTrades`) -/

/-- `RESOLUTION_MAX_RETRIES = 12` of the per-window resolver. -/
def RESOLUTION_MAX_RETRIES : ℕ := 12

/-- Resolve every pending trade of the group against the winning side:
`resolveTrade(trade.id, trade.side === winner ? "win" : "lose")`. -/
def resolveGroup (db : Db) (pending : List Trade) (winner : String) (now : ℤ) : Db :=
  pending.foldl
    (fun acc t =>
      resolveTrade acc t.id (if t.side = winner then Outcome.win else Outcome.lose) now)
    db

/-- Mark every pending trade of the group as timeout:
`resolveTradeTimeout(trade.id)`. -/
def timeoutGroup (db : Db) (pending : List Trade) (now : ℤ) : Db :=
  pending.foldl (fun acc t => resolveTradeTimeout acc t.id now) db

/-- The retry loop of `resolveMarketTrades`: up to `fuel` attempts of
`checkResolution` (the oracle `resolution`, indexed by attempt number);
on the first definitive winner resolve the pending group, and when the
budget is exhausted mark the whole group as timeout. -/
def resolveAttempts (db : Db) (pending : List Trade)
    (resolution : ℕ → Option String) (now : ℤ) : ℕ → ℕ → Db
  | _, 0 => timeoutGroup db pending now
  | attempt, fuel + 1 =>
      match resolution attempt with
      | some winner => resolveGroup db pending winner now
      | none => resolveAttempts db pending resolution now (attempt + 1) fuel

/-- The per-window resolver `resolveMarketTrades(market)`: fetch
`getTradesBySlug(slug)`, keep the rows with `outcome === null`; if none,
return; otherwise poll settlement up to `RESOLUTION_MAX_RETRIES` times and
finally fall back to marking the group as timeout. -/
def resolveMarketTrades (db : Db) (slug : String)
    (resolution : ℕ → Option String) (now : ℤ) : Db :=
  let pending := (getTradesBySlug db slug).filter fun t => t.outcome.isNone
  if pending.isEmpty then db
  else resolveAttempts db pending resolution now 0 RESOLUTION_MAX_RETRIES

/-! ### clob.ts: dual orders and the fill race -/

/-- clob.ts `MAX_FILL_POLLS = 130`. -/
def MAX_FILL_POLLS : ℕ := 130

/-- clob.ts `DualOrderResult`. -/
structure DualOrderResult where
  upOrderId : String
  downOrderId : String
deriving DecidableEq

/-- clob.ts `FillResult`. -/
structure FillResult where
  filledSide : String
  filledOrderId : String
  cancelledOrderId : String
  fillPrice : ℚ
  fillSize : ℚ
deriving DecidableEq

/-- One observation of `client.getOrder(id)`: `size_matched` after
`parseFloat` (`none` models NaN), the order `price`, and `status`. -/
structure OrderObs where
  size_matched : Option ℚ
  price : ℚ
  status : String
deriving DecidableEq

/-- clob.ts `!isNaN(matched) && matched > 0`. -/
def matchedPos (o : OrderObs) : Bool :=
  match o.size_matched with
  | some q => decide (0 < q)
  | none => false

/-- clob.ts `cancelAllOrders(orderIds)`: attempts `client.cancelOrder` for
each id in order (failures are swallowed); modelled as the list of
cancellation calls issued. -/
def cancelAllOrders (orderIds : List String) : List String := orderIds

/-- Outcome of one `placeDualOrders` / `waitForFill` style call: the
returned value paired with the cancellation calls issued. -/
abbrev RaceOutcome := Option FillResult × List String

/-- The `for (let i = 0; i < MAX_FILL_POLLS; i++)` loop of
clob.ts `waitForFill`, with the iteration index and remaining fuel explicit.
`polls i` is the joint result of the two concurrent `getOrder` calls of
iteration `i` (`none` models a thrown/caught poll error), `abort i` is the
caller's AbortSignal as observed at the top of iteration `i`. Exhausting the
budget cancels both orders and returns no fill. -/
def waitForFillAux (orders : DualOrderResult)
    (polls : ℕ → Option (OrderObs × OrderObs)) (abort : ℕ → Bool) :
    ℕ → ℕ → RaceOutcome
  | _, 0 => (none, cancelAllOrders [orders.upOrderId, orders.downOrderId])
  | i, fuel + 1 =>
      if abort i then
        (none, cancelAllOrders [orders.upOrderId, orders.downOrderId])
      else
        match polls i with
        | none => waitForFillAux orders polls abort (i + 1) fuel
        | some (upOrder, downOrder) =>
            if matchedPos upOrder then
              (some { filledSide := "Up", filledOrderId := orders.upOrderId,
                      cancelledOrderId := orders.downOrderId,
                      fillPrice := upOrder.price,
                      fillSize := upOrder.size_matched.getD 0 },
               cancelAllOrders [orders.downOrderId])
            else if matchedPos downOrder then
              (some { filledSide := "Down", filledOrderId := orders.downOrderId,
                      cancelledOrderId := orders.upOrderId,
                      fillPrice := downOrder.price,
                      fillSize := downOrder.size_matched.getD 0 },
               cancelAllOrders [orders.upOrderId])
            else if upOrder.status = "CANCELLED" ∧ downOrder.status = "CANCELLED" then
              (none, [])
            else waitForFillAux orders polls abort (i + 1) fuel

/-- clob.ts `waitForFill(orders, ..., abortSignal)`. -/
def waitForFill (orders : DualOrderResult)
    (polls : ℕ → Option (OrderObs × OrderObs)) (abort : ℕ → Bool) : RaceOutcome :=
  waitForFillAux orders polls abort 0 MAX_FILL_POLLS

/-- Result of one `createOrder`/`postOrder` pair in `placeDualOrders`:
a response carrying an `orderID`, a response without one, or a thrown
exception (caught by the surrounding try/catch). -/
inductive PlaceOutcome where
  | ok (orderId : String)
  | failResp
  | exn
deriving DecidableEq

/-- clob.ts `placeDualOrders`: place Up, abort on failure; place Down,
cancelling the Up order when Down's response carries no order id; a thrown
exception anywhere lands in the catch block, which returns null without
issuing any cancellation. Output: the returned value paired with the
cancellation calls issued. -/
def placeDualOrders (clientInit : Bool) (upResp downResp : PlaceOutcome) :
    Option DualOrderResult × List String :=
  if !clientInit then (none, [])
  else
    match upResp with
    | PlaceOutcome.exn => (none, [])
    | PlaceOutcome.failResp => (none, [])
    | PlaceOutcome.ok upId =>
        match downResp with
        | PlaceOutcome.exn => (none, [])
        | PlaceOutcome.failResp => (none, cancelAllOrders [upId])
        | PlaceOutcome.ok downId =>
            (some { upOrderId := upId, downOrderId := downId }, [])

/-- Order ids successfully placed during a `placeDualOrders` call: the Up
id as soon as its response carries one, the Down id likewise (the Down
order is only attempted when Up succeeded). -/
def placedDuring (upResp downResp : PlaceOutcome) : List String :=
  match upResp with
  | PlaceOutcome.ok upId =>
      match downResp with
      | PlaceOutcome.ok downId => [upId, downId]
      | _ => [upId]
  | _ => []

/-- Orders still open after a `placeDualOrders` call: placed ids minus the
cancellations it issued. -/
def openAfterDual (clientInit : Bool) (upResp downResp : PlaceOutcome) : List String :=
  (placedDuring upResp downResp).filter
    fun o => decide (o ∉ (placeDualOrders clientInit upResp downResp).2)

/-! ### index.ts: live session loss guard -/

/-- index.ts `MAX_SESSION_LOSS = 50`. -/
def MAX_SESSION_LOSS : ℚ := 50

/-- Session-guard-relevant state of `mainLive`: the running P&L estimate,
the trade counter, and whether the loop has broken out. -/
structure SessionState where
  sessionPnL : ℚ
  sessionTrades : ℕ
  halted : Bool
deriving DecidableEq

/-- One iteration of `mainLive`'s while-loop, restricted to its
session-guard effects. At the top of the loop the guard
`sessionPnL <= -MAX_SESSION_LOSS` breaks out. A window that ends with a
fill (`some cost`, the estimated cost `fillPrice * fillSize`) runs the
post-fill block, which increments `sessionTrades` and computes
`estimatedCost` for the log line; `sessionPnL` is not reassigned anywhere
in `mainLive`. A window without a fill leaves the state unchanged. -/
def mainLiveStep (s : SessionState) (event : Option ℚ) : SessionState :=
  if s.halted then s
  else if s.sessionPnL ≤ -MAX_SESSION_LOSS then { s with halted := true }
  else
    match event with
    | some _ => { s with sessionTrades := s.sessionTrades + 1 }
    | none => s

/-- A full live session: `let sessionPnL = 0; let sessionTrades = 0;`
followed by the window loop over the given sequence of window outcomes. -/
def mainLiveRun (events : List (Option ℚ)) : SessionState :=
  events.foldl mainLiveStep { sessionPnL := 0, sessionTrades := 0, halted := false }

/-! ### Auxiliary measures and predicates used by the statements -/

/-- 1 while the window is still eligible for a bet, 0 once it is in the
betted-market set. -/
def betIndicator (m : MarketInfo) (s : StrategyState) : ℕ :=
  if m.slug ∈ s.bettedMarkets then 0 else 1

/-- Poll iteration `j` of `waitForFill` falls through to the next iteration:
the abort signal is not set, and whatever the (possibly failing) poll
observes is neither a fill on either side nor a joint external
cancellation. -/
def raceContinues (polls : ℕ → Option (OrderObs × OrderObs)) (abort : ℕ → Bool)
    (j : ℕ) : Prop :=
  abort j = false ∧
    ∀ upOrder downOrder, polls j = some (upOrder, downOrder) →
      matchedPos upOrder = false ∧ matchedPos downOrder = false ∧
      ¬(upOrder.status = "CANCELLED" ∧ downOrder.status = "CANCELLED")

/-! ### Concrete example inputs -/

/-- A concrete market window for boundary and frame checks. -/
def exMarket : MarketInfo :=
  { slug := "btc-updown-5m-1700000100", conditionId := "cond-1",
    upTokenId := "tok-up", downTokenId := "tok-down" }

/-- The strategy state at the start of a fresh run over an empty database. -/
def exState : StrategyState :=
  { prices := [], priceHighLogged := [], marketSettled := false,
    bettedMarkets := [], db := { trades := [], nextId := 1 } }

/-- An unresolved Up trade for `exMarket`, created at time 0. -/
def exTrade : Trade :=
  { id := 1, market_slug := "btc-updown-5m-1700000100", condition_id := "cond-1",
    token_id := "tok-up", side := "Up", buy_price := mkRat 70 100,
    outcome := none, payout := none, profit := none,
    created_at := 0, resolved_at := none }

/-- A database holding only the unresolved `exTrade`. -/
def exDb : Db := { trades := [exTrade], nextId := 2 }

/-- A database with one unresolved Up trade and one unresolved Down trade
for the same window. -/
def exDb2 : Db :=
  { trades := [exTrade,
      { exTrade with id := 2, token_id := "tok-down", side := "Down",
                     buy_price := mkRat 30 100 }],
    nextId := 3 }

/-- Concrete dual orders for the fill race. -/
def exOrders : DualOrderResult := { upOrderId := "order-up", downOrderId := "order-down" }

/-- An order-status observation with no fill. -/
def exObsIdle : OrderObs := { size_matched := some 0, price := mkRat 60 100, status := "LIVE" }

/-- An order-status observation reporting `filledQuantity = 0.5`. -/
def exObsFill : OrderObs :=
  { size_matched := some (mkRat 50 100), price := mkRat 60 100, status := "LIVE" }

/-- A poll schedule where the Up order first reports a fill at poll 2 and
the Down order never reports a nonzero fill. -/
def exPolls (i : ℕ) : Option (OrderObs × OrderObs) :=
  if i = 2 then some (exObsFill, exObsIdle) else some (exObsIdle, exObsIdle)

/-- A poll schedule where both orders report a fill on every poll. -/
def exPollsTie (_ : ℕ) : Option (OrderObs × OrderObs) :=
  some (exObsFill, exObsFill)

/-! ## Helper lemmas: price gate -/

lemma settledFires_eq_false_of_mem {m : MarketInfo} {s : StrategyState}
    (h : m.slug ∈ s.bettedMarkets) : settledFires m s = false := by
  simp [settledFires, h]

lemma gateStep_of_mem (tokenId : String) (price : ℚ) (now : ℤ)
    {m : MarketInfo} {s : StrategyState} (h : m.slug ∈ s.bettedMarkets) :
    gateStep m tokenId price now s = s := by
  simp [gateStep, settledFires_eq_false_of_mem h, h]

lemma handlePriceUpdate_of_mem (tokenId : String) (price : ℚ) (now : ℤ)
    {m : MarketInfo} {s : StrategyState} (h : m.slug ∈ s.bettedMarkets) :
    handlePriceUpdate m tokenId price now s
      = { s with prices := priceSet s.prices tokenId price } := by
  unfold handlePriceUpdate
  exact gateStep_of_mem tokenId price now h

lemma tradesFor_insertTrade_length (db : Db) (slug cond tok side : String)
    (p : ℚ) (now : ℤ) :
    (tradesFor (insertTrade db slug cond tok side p now) slug).length
      = (tradesFor db slug).length + 1 := by
  simp [tradesFor, insertTrade, List.filter_append]

lemma gateStep_mu (m : MarketInfo) (tokenId : String) (price : ℚ) (now : ℤ)
    (s : StrategyState) :
    (tradesFor (gateStep m tokenId price now s).db m.slug).length
        + betIndicator m (gateStep m tokenId price now s)
      = (tradesFor s.db m.slug).length + betIndicator m s := by
  by_cases h1 : settledFires m s
  · simp [gateStep, h1, betIndicator]
  · by_cases h2 : m.slug ∈ s.bettedMarkets
    · simp [gateStep, h1, h2]
    · by_cases h3 : price < BUY_THRESHOLD
      · simp [gateStep, h1, h2, h3]
      · by_cases h4 : BUY_MAX_PRICE < price
        · simp only [gateStep, h1, h2, h3, h4, if_false, if_true, Bool.false_eq_true,
            ite_false, ite_true, logHigh]
          split <;> rfl
        · by_cases h5 : tokenId = m.upTokenId
          · simp [gateStep, h1, h2, h3, h4, h5, placeBet, betIndicator,
              tradesFor_insertTrade_length]
          · by_cases h6 : tokenId = m.downTokenId
            · have h7 : ¬(m.downTokenId = m.upTokenId) := h6 ▸ h5
              simp [gateStep, h1, h2, h3, h4, h5, h6, h7, placeBet, betIndicator,
                tradesFor_insertTrade_length]
            · simp [gateStep, h1, h2, h3, h4, h5, h6]

lemma handlePriceUpdate_mu (m : MarketInfo) (tokenId : String) (price : ℚ)
    (now : ℤ) (s : StrategyState) :
    (tradesFor (handlePriceUpdate m tokenId price now s).db m.slug).length
        + betIndicator m (handlePriceUpdate m tokenId price now s)
      = (tradesFor s.db m.slug).length + betIndicator m s := by
  unfold handlePriceUpdate
  exact gateStep_mu m tokenId price now _

lemma runTicks_nil (m : MarketInfo) (s : StrategyState) : runTicks m [] s = s := rfl

lemma runTicks_cons (m : MarketInfo) (tk : String × ℚ × ℤ)
    (ticks : List (String × ℚ × ℤ)) (s : StrategyState) :
    runTicks m (tk :: ticks) s
      = runTicks m ticks (handlePriceUpdate m tk.1 tk.2.1 tk.2.2 s) := rfl

lemma runTicks_mu (m : MarketInfo) (ticks : List (String × ℚ × ℤ)) :
    ∀ s : StrategyState,
      (tradesFor (runTicks m ticks s).db m.slug).length
          + betIndicator m (runTicks m ticks s)
        = (tradesFor s.db m.slug).length + betIndicator m s := by
  induction ticks with
  | nil => intro s; rfl
  | cons tk ticks ih =>
      intro s
      rw [runTicks_cons]
      rw [ih (handlePriceUpdate m tk.1 tk.2.1 tk.2.2 s)]
      exact handlePriceUpdate_mu m tk.1 tk.2.1 tk.2.2 s

lemma runTicks_db_of_mem (m : MarketInfo) (ticks : List (String × ℚ × ℤ)) :
    ∀ s : StrategyState, m.slug ∈ s.bettedMarkets →
      (runTicks m ticks s).db = s.db := by
  induction ticks with
  | nil => intro s _; rfl
  | cons tk ticks ih =>
      intro s h
      rw [runTicks_cons, handlePriceUpdate_of_mem tk.1 tk.2.1 tk.2.2 h]
      exact ih _ h

/-! ## C1: at most one trade per window, including across a restart -/

/-- C1: For every sequence of `handlePriceUpdate` calls within one
market window: (i) at most one trade row is created for that window's slug,
regardless of how many qualifying ticks arrive or in what order; (ii) once
the slug is in the betted-market set, the database is not touched at all;
and (iii) after a process restart with an unresolved (fresh) trade for
window W already in the database, the betted-market set is reseeded from
storage, so no second trade is created for W even when new qualifying ticks
for W arrive. -/
theorem handlePriceUpdate_at_most_once (m : MarketInfo)
    (ticks : List (String × ℚ × ℤ)) (s : StrategyState) (db : Db) (now₀ : ℤ)
    (t : Trade) :
    (tradesFor (runTicks m ticks s).db m.slug).length
        ≤ (tradesFor s.db m.slug).length + 1
    ∧ (m.slug ∈ s.bettedMarkets → (runTicks m ticks s).db = s.db)
    ∧ (t ∈ db.trades → t.outcome = none → now₀ - 3600 < t.created_at →
        t.market_slug = m.slug →
        (runTicks m ticks (startupState db now₀)).db = db) := by
  refine ⟨?_, fun h => runTicks_db_of_mem m ticks s h, ?_⟩
  · have hmu := runTicks_mu m ticks s
    have h₁ : betIndicator m (runTicks m ticks s) ≤ 1 := by
      unfold betIndicator; split <;> omega
    have h₂ : betIndicator m s ≤ 1 := by
      unfold betIndicator; split <;> omega
    omega
  · intro ht hout hfresh hslug
    have hmem : m.slug ∈ (startupState db now₀).bettedMarkets := by
      refine List.mem_map.mpr ⟨t, List.mem_filter.mpr ⟨ht, ?_⟩, hslug⟩
      rw [hout]
      simp [hfresh]
    exact runTicks_db_of_mem m ticks (startupState db now₀) hmem

/-- Witness for C1: over a database holding the unresolved `exTrade`, a
restarted process that sees further qualifying ticks for the same window
leaves the database unchanged (both through the mid-run clause and through
the restart clause). -/
theorem handlePriceUpdate_at_most_once_witness :
    (runTicks exMarket [("tok-up", mkRat 70 100, 10)] (startupState exDb 100)).db = exDb
    ∧ (runTicks exMarket [("tok-up", mkRat 70 100, 10)] (startupState exDb 100)).db
        = (startupState exDb 100).db :=
  ⟨(handlePriceUpdate_at_most_once exMarket [("tok-up", mkRat 70 100, 10)]
        (startupState exDb 100) exDb 100 exTrade).2.2
      (by decide) (by decide) (by decide) (by decide),
   (handlePriceUpdate_at_most_once exMarket [("tok-up", mkRat 70 100, 10)]
        (startupState exDb 100) exDb 100 exTrade).2.1
      (by decide)⟩

/-! ## C2: the reject ceiling boundary -/

/-- C2 counterexample: The claim says a tick priced exactly at the
reject ceiling 0.85 is rejected. In the code the rejection test is
`price > BUY_MAX_PRICE` (strict), so a tick at exactly 0.85 on the Up token
passes the gate and creates a trade. -/
theorem price_gate_ceiling_counterexample :
    (handlePriceUpdate exMarket "tok-up" (mkRat 85 100) 0 exState).db.trades.length = 1
    ∧ exState.db.trades.length = 0 := by
  decide

/-- C2 amended: `handlePriceUpdate` enters on a price in the closed
interval `[BUY_THRESHOLD, BUY_MAX_PRICE]`: with threshold 0.60 and ceiling
0.85, ticks at exactly 0.60, at 0.84999 and at exactly 0.85 all qualify for
entry, and only prices strictly above 0.85 (or strictly below 0.60) are
rejected. Stated for a matched (Up) token over a fresh window state. -/
theorem price_gate_closed_interval (p : ℚ) :
    (handlePriceUpdate exMarket "tok-up" p 0 exState).db.trades.length
      = if BUY_THRESHOLD ≤ p ∧ p ≤ BUY_MAX_PRICE then 1 else 0 := by
  have hset : settledFires exMarket
      { exState with prices := priceSet exState.prices "tok-up" p } = false := by
    simp [settledFires, exState, exMarket, priceSet, priceGet]
  unfold handlePriceUpdate gateStep
  rw [hset]
  by_cases h3 : p < BUY_THRESHOLD
  · have hiff : ¬(BUY_THRESHOLD ≤ p ∧ p ≤ BUY_MAX_PRICE) :=
      fun hc => absurd hc.1 (not_le.mpr h3)
    simp [h3, exState, exMarket, hiff]
  · by_cases h4 : BUY_MAX_PRICE < p
    · have hiff : ¬(BUY_THRESHOLD ≤ p ∧ p ≤ BUY_MAX_PRICE) :=
        fun hc => absurd hc.2 (not_le.mpr h4)
      simp [h3, h4, logHigh, exState, exMarket, hiff]
    · have hiff : BUY_THRESHOLD ≤ p ∧ p ≤ BUY_MAX_PRICE :=
        ⟨not_lt.mp h3, not_lt.mp h4⟩
      simp [h3, h4, exState, exMarket, placeBet, insertTrade, hiff]

/-! ## C9: an unmatched token id -/

/-- C9 counterexample: The claim says a call with an unmatched token id
leaves all observable state unmodified. It does leave the database and the
betted-market set unchanged, but the latest-price map (observable through
`getLatestPrices`) is updated unconditionally at the top of
`handlePriceUpdate`, so the state does change. -/
theorem unmatched_token_counterexample :
    (handlePriceUpdate exMarket "tok-other" (mkRat 50 100) 0 exState).db = exState.db
    ∧ (handlePriceUpdate exMarket "tok-other" (mkRat 50 100) 0 exState).bettedMarkets
        = exState.bettedMarkets
    ∧ (handlePriceUpdate exMarket "tok-other" (mkRat 50 100) 0 exState).prices
        ≠ exState.prices := by
  decide

/-- C9 amended: A call to `handlePriceUpdate` with a token id matching
neither of the market's two known token ids inserts no trade and leaves the
betted-market set unchanged; the latest-price map is still updated with the
tick (and the transient settled/log flags may change). -/
theorem unmatched_token_no_bet (m : MarketInfo) (tokenId : String) (price : ℚ)
    (now : ℤ) (s : StrategyState)
    (hup : tokenId ≠ m.upTokenId) (hdown : tokenId ≠ m.downTokenId) :
    (handlePriceUpdate m tokenId price now s).db = s.db
    ∧ (handlePriceUpdate m tokenId price now s).bettedMarkets = s.bettedMarkets
    ∧ (handlePriceUpdate m tokenId price now s).prices
        = priceSet s.prices tokenId price := by
  have frame : ∀ s' : StrategyState,
      (gateStep m tokenId price now s').db = s'.db
      ∧ (gateStep m tokenId price now s').bettedMarkets = s'.bettedMarkets
      ∧ (gateStep m tokenId price now s').prices = s'.prices := by
    intro s'
    unfold gateStep
    by_cases h1 : settledFires m s'
    · simp [h1]
    · by_cases h2 : m.slug ∈ s'.bettedMarkets
      · simp [h1, h2]
      · by_cases h3 : price < BUY_THRESHOLD
        · simp [h1, h2, h3]
        · by_cases h4 : BUY_MAX_PRICE < price
          · by_cases hk : (m.slug ++ ":" ++ tokenId) ∈ s'.priceHighLogged
            · simp [h1, h2, h3, h4, logHigh, hk]
            · simp [h1, h2, h3, h4, logHigh, hk]
          · simp [h1, h2, h3, h4, hup, hdown]
  exact frame { s with prices := priceSet s.prices tokenId price }

/-- Witness for C9 (amended), at the concrete unmatched token. -/
theorem unmatched_token_no_bet_witness :
    (handlePriceUpdate exMarket "tok-other" (mkRat 50 100) 0 exState).db = exState.db
    ∧ (handlePriceUpdate exMarket "tok-other" (mkRat 50 100) 0 exState).bettedMarkets
        = exState.bettedMarkets
    ∧ (handlePriceUpdate exMarket "tok-other" (mkRat 50 100) 0 exState).prices
        = priceSet exState.prices "tok-other" (mkRat 50 100) :=
  unmatched_token_no_bet exMarket "tok-other" (mkRat 50 100) 0 exState
    (by decide) (by decide)

/-! ## Helper lemmas: resolution -/

lemma resolveTradeRow_id (t : Trade) (o : Outcome) (now : ℤ) :
    (resolveTradeRow t o now).id = t.id := rfl

lemma mem_resolveTrade_of_ne {t : Trade} {db : Db} (h : t ∈ db.trades)
    {i : ℕ} (hne : t.id ≠ i) (o : Outcome) (now : ℤ) :
    t ∈ (resolveTrade db i o now).trades := by
  have hmem := List.mem_map_of_mem
    (fun t' => if t'.id = i then resolveTradeRow t' o now else t') h
  simpa [resolveTrade, hne] using hmem

lemma mem_resolveTrade_of_eq {t : Trade} {db : Db} (h : t ∈ db.trades)
    (o : Outcome) (now : ℤ) :
    resolveTradeRow t o now ∈ (resolveTrade db t.id o now).trades := by
  have hmem := List.mem_map_of_mem
    (fun t' => if t'.id = t.id then resolveTradeRow t' o now else t') h
  simpa [resolveTrade] using hmem

lemma mem_cycleStep_of_ne {t u : Trade} {acc : Db} (h : t ∈ acc.trades)
    (hne : t.id ≠ u.id) (resolution : String → Option String) (now : ℤ) :
    t ∈ (cycleStep resolution now acc u).trades := by
  unfold cycleStep
  cases hres : resolution u.market_slug with
  | none => exact h
  | some winner => exact mem_resolveTrade_of_ne h hne _ now

lemma foldl_cycleStep_preserve (resolution : String → Option String) (now : ℤ) :
    ∀ (L : List Trade) (acc : Db) (t : Trade), t ∈ acc.trades →
      t.id ∉ L.map Trade.id →
      t ∈ (L.foldl (cycleStep resolution now) acc).trades := by
  intro L
  induction L with
  | nil => intro acc t h _; exact h
  | cons u L ih =>
      intro acc t h hid
      rw [List.map_cons, List.mem_cons] at hid
      push_neg at hid
      rw [List.foldl_cons]
      exact ih _ _ (mem_cycleStep_of_ne h hid.1 resolution now) hid.2

lemma foldl_cycleStep_resolves (resolution : String → Option String) (now : ℤ) :
    ∀ (L : List Trade) (acc : Db) (t : Trade) (winner : String),
      (L.map Trade.id).Nodup → t ∈ L → t ∈ acc.trades →
      resolution t.market_slug = some winner →
      resolveTradeRow t (if t.side = winner then Outcome.win else Outcome.lose) now
        ∈ (L.foldl (cycleStep resolution now) acc).trades := by
  intro L
  induction L with
  | nil => intro acc t winner _ hmem; exact absurd hmem (List.not_mem_nil t)
  | cons u L ih =>
      intro acc t winner hnd hmem hacc hres
      rw [List.map_cons] at hnd
      obtain ⟨hhead, htail⟩ := List.nodup_cons.mp hnd
      rw [List.foldl_cons]
      rcases List.mem_cons.mp hmem with he | hm
      · subst he
        have hstep : resolveTradeRow t
            (if t.side = winner then Outcome.win else Outcome.lose) now
            ∈ (cycleStep resolution now acc t).trades := by
          unfold cycleStep
          rw [hres]
          exact mem_resolveTrade_of_eq hacc _ now
        exact foldl_cycleStep_preserve resolution now L _ _ hstep hhead
      · have hne : t.id ≠ u.id := by
          intro he
          exact hhead (he ▸ List.mem_map_of_mem Trade.id hm)
        exact ih _ _ _ htail hm (mem_cycleStep_of_ne hacc hne resolution now) hres

/-! ## C3: settlement with winning side Up finalizes the window group -/

/-- C3: When the settlement query for window W returns winning side
"Up", one cycle of the background resolution loop finalizes every
unresolved (fresh) position in W: a position with side "Up" gets
outcome = win, payout = 1.0 and profit = 1.00 − entryPrice; a position with
side "Down" gets outcome = lose, payout = 0 and profit = −entryPrice.
(Freshness — created within the last hour — is the fetch window of
`getOpenTrades`; row ids are unique, as SQLite's AUTOINCREMENT key
guarantees.) -/
theorem resolution_cycle_finalizes (db : Db) (resolution : String → Option String)
    (now : ℤ) (W : String) (t : Trade)
    (hnd : (db.trades.map Trade.id).Nodup)
    (ht : t ∈ db.trades) (hopen : t.outcome = none)
    (hfresh : now - 3600 < t.created_at) (hslug : t.market_slug = W)
    (hwin : resolution W = some "Up") :
    ∃ t' ∈ (resolutionCycle db resolution now).trades, t'.id = t.id
      ∧ (t.side = "Up" →
          t'.outcome = some Outcome.win ∧ t'.payout = some 1
            ∧ t'.profit = some (1 - t.buy_price))
      ∧ (t.side = "Down" →
          t'.outcome = some Outcome.lose ∧ t'.payout = some 0
            ∧ t'.profit = some (-t.buy_price)) := by
  have hres : resolution t.market_slug = some "Up" := hslug ▸ hwin
  have hmemopen : t ∈ getOpenTrades db now :=
    List.mem_filter.mpr ⟨ht, by rw [hopen]; simp [hfresh]⟩
  have hndopen : ((getOpenTrades db now).map Trade.id).Nodup :=
    List.Nodup.sublist (List.Sublist.map Trade.id (List.filter_sublist _)) hnd
  refine ⟨resolveTradeRow t (if t.side = "Up" then Outcome.win else Outcome.lose) now,
    foldl_cycleStep_resolves resolution now _ db t "Up" hndopen hmemopen ht hres,
    rfl, ?_, ?_⟩
  · intro hside
    simp [resolveTradeRow, hside]
  · intro hside
    have hne : ¬(t.side = "Up") := by rw [hside]; decide
    simp [resolveTradeRow, hne]

/-- Witness for C3: over a database with an unresolved Up trade and an
unresolved Down trade for the same window, a cycle whose settlement oracle
answers "Up" finalizes the Up trade as a win. -/
theorem resolution_cycle_finalizes_witness :
    ∃ t' ∈ (resolutionCycle exDb2
        (fun s => if s = "btc-updown-5m-1700000100" then some "Up" else none)
        100).trades, t'.id = exTrade.id
      ∧ (exTrade.side = "Up" →
          t'.outcome = some Outcome.win ∧ t'.payout = some 1
            ∧ t'.profit = some (1 - exTrade.buy_price))
      ∧ (exTrade.side = "Down" →
          t'.outcome = some Outcome.lose ∧ t'.payout = some 0
            ∧ t'.profit = some (-exTrade.buy_price)) :=
  resolution_cycle_finalizes exDb2
    (fun s => if s = "btc-updown-5m-1700000100" then some "Up" else none)
    100 "btc-updown-5m-1700000100" exTrade
    (by decide) (by decide) (by decide) (by decide) (by decide) (by decide)

/-! ## Helper lemmas: the fill race -/

lemma waitForFillAux_skip (orders : DualOrderResult)
    (polls : ℕ → Option (OrderObs × OrderObs)) (abort : ℕ → Bool)
    {j : ℕ} (h : raceContinues polls abort j) (fuel : ℕ) :
    waitForFillAux orders polls abort j (fuel + 1)
      = waitForFillAux orders polls abort (j + 1) fuel := by
  conv_lhs => unfold waitForFillAux
  rw [if_neg (by simp [h.1])]
  cases hp : polls j with
  | none => rfl
  | some obs =>
      obtain ⟨upOrder, downOrder⟩ := obs
      obtain ⟨hu, hd, hc⟩ := h.2 upOrder downOrder hp
      simp [hu, hd, hc]

lemma waitForFill_reach (orders : DualOrderResult)
    (polls : ℕ → Option (OrderObs × OrderObs)) (abort : ℕ → Bool) :
    ∀ i : ℕ, i ≤ MAX_FILL_POLLS → (∀ j, j < i → raceContinues polls abort j) →
      waitForFill orders polls abort
        = waitForFillAux orders polls abort i (MAX_FILL_POLLS - i) := by
  intro i
  induction i with
  | zero => intro _ _; rfl
  | succ i ih =>
      intro hle hcont
      have hlt : i < MAX_FILL_POLLS := hle
      rw [ih (le_of_lt hlt) (fun j hj => hcont j (hj.trans (Nat.lt_succ_self i)))]
      have hfuel : MAX_FILL_POLLS - i = (MAX_FILL_POLLS - (i + 1)) + 1 := by omega
      rw [hfuel]
      exact waitForFillAux_skip orders polls abort (hcont i (Nat.lt_succ_self i)) _

/-! ## C4: the first observed fill wins and the loser is cancelled once -/

/-- C4: If the fill race reaches poll `i` (no earlier fill, abort or joint
cancellation) and at poll `i` one side's order reports filled quantity
greater than zero while the other has never reported nonzero, `waitForFill`
returns that side as the filled winner — with its fill price, its fill
size and both order ids — and issues exactly one cancellation call, for the
other side's order id. -/
theorem waitForFill_first_observed_fill_wins (orders : DualOrderResult)
    (polls : ℕ → Option (OrderObs × OrderObs)) (abort : ℕ → Bool)
    (i : ℕ) (upOrder downOrder : OrderObs)
    (hi : i < MAX_FILL_POLLS)
    (hbefore : ∀ j, j < i → raceContinues polls abort j)
    (habort : abort i = false)
    (hpoll : polls i = some (upOrder, downOrder)) :
    (matchedPos upOrder = true →
      waitForFill orders polls abort
        = (some { filledSide := "Up", filledOrderId := orders.upOrderId,
                  cancelledOrderId := orders.downOrderId,
                  fillPrice := upOrder.price,
                  fillSize := upOrder.size_matched.getD 0 },
           cancelAllOrders [orders.downOrderId]))
    ∧ (matchedPos upOrder = false → matchedPos downOrder = true →
      waitForFill orders polls abort
        = (some { filledSide := "Down", filledOrderId := orders.downOrderId,
                  cancelledOrderId := orders.upOrderId,
                  fillPrice := downOrder.price,
                  fillSize := downOrder.size_matched.getD 0 },
           cancelAllOrders [orders.upOrderId])) := by
  have hreach := waitForFill_reach orders polls abort i (le_of_lt hi) hbefore
  have hfuel : MAX_FILL_POLLS - i = (MAX_FILL_POLLS - (i + 1)) + 1 := by omega
  rw [hfuel] at hreach
  constructor
  · intro hu
    rw [hreach]
    unfold waitForFillAux
    simp [habort, hpoll, hu]
  · intro hu hd
    rw [hreach]
    unfold waitForFillAux
    simp [habort, hpoll, hu, hd]

/-- Witness for C4: with the Up order first reporting `filledQuantity = 0.5`
at poll 2 and the Down order always at zero, the race returns the Up fill
and cancels exactly the Down order id. -/
theorem waitForFill_first_observed_fill_wins_witness :
    waitForFill exOrders exPolls (fun _ => false)
      = (some { filledSide := "Up", filledOrderId := "order-up",
                cancelledOrderId := "order-down", fillPrice := mkRat 60 100,
                fillSize := mkRat 50 100 },
         ["order-down"]) :=
  (waitForFill_first_observed_fill_wins exOrders exPolls (fun _ => false)
      2 exObsFill exObsIdle (by decide)
      (fun j hj => by
        refine ⟨rfl, fun upOrder downOrder hpd => ?_⟩
        have hj2 : j ≠ 2 := by omega
        unfold exPolls at hpd
        rw [if_neg hj2] at hpd
        injection hpd with h1
        injection h1 with h2 h3
        subst h2
        subst h3
        exact ⟨by decide, by decide, by decide⟩)
      rfl rfl).1 (by decide)

/-! ## C5: an abort before any fill cancels both orders -/

/-- C5: If the caller-supplied cancellation signal is observed at the top of
poll `k`, before any fill has been observed, `waitForFill` cancels both the
Up and the Down order and returns no result — whatever the later polls
(including a fill on the very next poll) would have reported. -/
theorem waitForFill_abort_cancels_both (orders : DualOrderResult)
    (polls : ℕ → Option (OrderObs × OrderObs)) (abort : ℕ → Bool) (k : ℕ)
    (hk : k < MAX_FILL_POLLS)
    (hbefore : ∀ j, j < k → raceContinues polls abort j)
    (habort : abort k = true) :
    waitForFill orders polls abort
      = (none, cancelAllOrders [orders.upOrderId, orders.downOrderId]) := by
  have hreach := waitForFill_reach orders polls abort k (le_of_lt hk) hbefore
  have hfuel : MAX_FILL_POLLS - k = (MAX_FILL_POLLS - (k + 1)) + 1 := by omega
  rw [hfuel] at hreach
  rw [hreach]
  unfold waitForFillAux
  rw [if_pos habort]

/-- Witness for C5: the abort signal fires at poll 1 while a fill would have
been observed at poll 2 (`exPolls`); both orders are cancelled and no fill
is returned. -/
theorem waitForFill_abort_cancels_both_witness :
    waitForFill exOrders exPolls (fun i => decide (i = 1))
      = (none, ["order-up", "order-down"]) :=
  waitForFill_abort_cancels_both exOrders exPolls (fun i => decide (i = 1)) 1
    (by decide)
    (fun j hj => by
      have hj0 : j = 0 := by omega
      subst hj0
      refine ⟨by decide, fun upOrder downOrder hpd => ?_⟩
      unfold exPolls at hpd
      rw [if_neg (by decide : ¬((0:ℕ) = 2))] at hpd
      injection hpd with h1
      injection h1 with h2 h3
      subst h2
      subst h3
      exact ⟨by decide, by decide, by decide⟩)
    (by decide)

/-! ## C10: the tie-break is deterministic in favour of Up -/

/-- C10: If, within a single poll cycle, both the Up and the Down order
report filled quantity greater than zero, `waitForFill` returns Up as the
filled side and issues the cancellation for the Down order, because the Up
order's status is checked first in each cycle. -/
theorem waitForFill_tie_breaks_up (orders : DualOrderResult)
    (polls : ℕ → Option (OrderObs × OrderObs)) (abort : ℕ → Bool)
    (i : ℕ) (upOrder downOrder : OrderObs)
    (hi : i < MAX_FILL_POLLS)
    (hbefore : ∀ j, j < i → raceContinues polls abort j)
    (habort : abort i = false)
    (hpoll : polls i = some (upOrder, downOrder))
    (hu : matchedPos upOrder = true) (_hd : matchedPos downOrder = true) :
    waitForFill orders polls abort
      = (some { filledSide := "Up", filledOrderId := orders.upOrderId,
                cancelledOrderId := orders.downOrderId,
                fillPrice := upOrder.price,
                fillSize := upOrder.size_matched.getD 0 },
         cancelAllOrders [orders.downOrderId]) := by
  have hreach := waitForFill_reach orders polls abort i (le_of_lt hi) hbefore
  have hfuel : MAX_FILL_POLLS - i = (MAX_FILL_POLLS - (i + 1)) + 1 := by omega
  rw [hfuel] at hreach
  rw [hreach]
  unfold waitForFillAux
  simp [habort, hpoll, hu]

/-- Witness for C10: with both orders filled on the very first poll, the Up
side wins and the Down order is the one cancelled. -/
theorem waitForFill_tie_breaks_up_witness :
    waitForFill exOrders exPollsTie (fun _ => false)
      = (some { filledSide := "Up", filledOrderId := "order-up",
                cancelledOrderId := "order-down", fillPrice := mkRat 60 100,
                fillSize := mkRat 50 100 },
         ["order-down"]) :=
  waitForFill_tie_breaks_up exOrders exPollsTie (fun _ => false) 0
    exObsFill exObsFill (by decide)
    (fun j hj => absurd hj (by omega))
    rfl rfl (by decide) (by decide)

/-! ## C7: placeDualOrders under partial failure -/

/-- C7 counterexample: The claim says `placeDualOrders` is atomic with
respect to partial failure of the second (Down) order. That holds when the
Down order's response carries no order id — but when the Down placement
throws, the surrounding try/catch returns null without cancelling the
already-placed Up order, which is left open. -/
theorem placeDualOrders_counterexample :
    placeDualOrders true (PlaceOutcome.ok "order-up") PlaceOutcome.exn = (none, [])
    ∧ openAfterDual true (PlaceOutcome.ok "order-up") PlaceOutcome.exn
        = ["order-up"] := by
  decide

/-- C7 amended: With the client initialized, if placing the Up order fails
(rejected response or exception) `placeDualOrders` aborts returning null
with no orders left open; if the Down order's response carries no order id,
it cancels the already-placed Up order and aborts returning null with no
orders left open; but if the Down placement throws an exception, it aborts
returning null without issuing any cancellation, leaving the Up order
open. -/
theorem placeDualOrders_partial_failure (upId : String) (downResp : PlaceOutcome) :
    (placeDualOrders true PlaceOutcome.failResp downResp = (none, [])
      ∧ openAfterDual true PlaceOutcome.failResp downResp = [])
    ∧ (placeDualOrders true PlaceOutcome.exn downResp = (none, [])
      ∧ openAfterDual true PlaceOutcome.exn downResp = [])
    ∧ (placeDualOrders true (PlaceOutcome.ok upId) PlaceOutcome.failResp
          = (none, [upId])
      ∧ openAfterDual true (PlaceOutcome.ok upId) PlaceOutcome.failResp = [])
    ∧ (placeDualOrders true (PlaceOutcome.ok upId) PlaceOutcome.exn = (none, [])
      ∧ openAfterDual true (PlaceOutcome.ok upId) PlaceOutcome.exn = [upId]) := by
  refine ⟨⟨rfl, rfl⟩, ⟨rfl, rfl⟩, ⟨rfl, ?_⟩, ⟨rfl, ?_⟩⟩
  · simp [openAfterDual, placedDuring, placeDualOrders, cancelAllOrders]
  · simp [openAfterDual, placedDuring, placeDualOrders, cancelAllOrders]

/-! ## C6: the timeout fallback exists only on the per-window path -/

/-- C6 (code bug): The per-window resolver does transition a never-settling
group to outcome = timeout with payout = 0 and profit = −entryPrice once its
retry budget is exhausted (second conjunct). But the background resolution
loop of strategy.ts has no such fallback: a pending position older than the
one-hour fetch window of `getOpenTrades` is excluded from every later cycle,
so it stays pending indefinitely no matter what the settlement oracle would
answer (first conjunct). -/
theorem resolution_timeout_gap (resolution : String → Option String)
    (res : ℕ → Option String) (now : ℤ)
    (hstale : 3600 ≤ now) (hres : ∀ a, res a = none) :
    resolutionCycle exDb resolution now = exDb
    ∧ (resolveMarketTrades exDb "btc-updown-5m-1700000100" res now).trades
        = [{ exTrade with
             outcome := some Outcome.timeout, payout := some 0,
             profit := some (-(mkRat 70 100)), resolved_at := some now }] := by
  have hnotfresh : ¬(now - 3600 < exTrade.created_at) := by
    simp only [exTrade]
    omega
  have hcond : (exTrade.outcome.isNone
      && decide (now - 3600 < exTrade.created_at)) = false := by
    simp [hnotfresh]
  have hopen : getOpenTrades exDb now = [] := by
    simp [getOpenTrades, exDb, List.filter_cons, hcond]
  constructor
  · unfold resolutionCycle
    rw [hopen]
    rfl
  · have hattempts : ∀ (fuel attempt : ℕ),
        resolveAttempts exDb [exTrade] res now attempt fuel
          = timeoutGroup exDb [exTrade] now := by
      intro fuel
      induction fuel with
      | zero => intro attempt; rfl
      | succ fuel ih =>
          intro attempt
          unfold resolveAttempts
          rw [hres attempt]
          exact ih (attempt + 1)
    have hpend : (getTradesBySlug exDb "btc-updown-5m-1700000100").filter
        (fun t => t.outcome.isNone) = [exTrade] := rfl
    unfold resolveMarketTrades
    rw [hpend, if_neg (by decide), hattempts]
    rfl

/-- Witness for C6: at `now = 3600` with a never-answering oracle, the
background cycle leaves `exDb` untouched while the per-window resolver marks
the trade as a timeout with full loss. -/
theorem resolution_timeout_gap_witness :
    resolutionCycle exDb (fun _ => some "Up") 3600 = exDb
    ∧ (resolveMarketTrades exDb "btc-updown-5m-1700000100" (fun _ => none)
          3600).trades
        = [{ exTrade with
             outcome := some Outcome.timeout, payout := some 0,
             profit := some (-(mkRat 70 100)), resolved_at := some (3600 : ℤ) }] :=
  resolution_timeout_gap (fun _ => some "Up") (fun _ => none) 3600
    (by decide) (fun _ => rfl)

/-! ## C8: the session loss guard is never armed -/

set_option maxRecDepth 4000 in
/-- C8 (code bug): `mainLive` declares `sessionPnL = 0` and checks
`sessionPnL <= -MAX_SESSION_LOSS` at the top of every window, but no code
path ever reassigns `sessionPnL` — the post-fill block only increments
`sessionTrades` and computes `estimatedCost` for its log line. Hence over
every sequence of window outcomes the running total stays 0 and the loop is
never halted by the loss guard; in particular a session of 60 filled
windows enters all 60 trades. -/
theorem session_loss_guard_dead :
    (∀ events : List (Option ℚ),
      (mainLiveRun events).sessionPnL = 0 ∧ (mainLiveRun events).halted = false)
    ∧ (mainLiveRun (List.replicate 60 (some (1 : ℚ)))).sessionTrades = 60 := by
  have key : ∀ (evs : List (Option ℚ)) (s : SessionState),
      s.sessionPnL = 0 → s.halted = false →
      (evs.foldl mainLiveStep s).sessionPnL = 0
        ∧ (evs.foldl mainLiveStep s).halted = false := by
    intro evs
    induction evs with
    | nil => intro s h1 h2; exact ⟨h1, h2⟩
    | cons e evs ih =>
        intro s h1 h2
        rw [List.foldl_cons]
        have hng : ¬(s.sessionPnL ≤ -MAX_SESSION_LOSS) := by
          rw [h1]; decide
        have h50 : ¬(MAX_SESSION_LOSS ≤ 0) := by decide
        have hstep : (mainLiveStep s e).sessionPnL = 0
            ∧ (mainLiveStep s e).halted = false := by
          unfold mainLiveStep
          rw [h2]
          cases e <;> simp [hng, h1, h2, h50]
        exact ih _ hstep.1 hstep.2
  exact ⟨fun events => key events _ rfl rfl, by decide⟩

end PolyBet
